import Mathlib

/-!
Verification development for the `tie` terminal raster-image editor.

The definitions below are a shallow embedding of the program's Rust sources:

* `src/image.rs`    — `Rgb`, `Image`, `open`, `paint`, `save_as`, `save`,
                      `into_text_with_cursor`, `bg_color`, `fg_color_mut`, `rgb_vec`;
* `src/widget/canvas.rs` — `Canvas`, `move_cursor`, `paint`;
* `src/command.rs` and `src/command/keyinput.rs` — `Command`, `KeyInput`,
  `parse_cmd_line` and the four regex-based sub-parsers, `update_cmd_line_content`,
  `read`;
* `src/command/keyinput/keyconfig.rs` — `KeyConfig`.

Machine integers (`u8`, `u32`, `usize`) are embedded as `Nat`; the only
arithmetic the sources perform on them is bounded subtraction (`255 - c` on a
`u8`, `saturating_sub`), which agrees with truncated `Nat` subtraction, and
additions that cannot overflow at the sizes involved.  Rust panics
(`unwrap`, `assert!`, `unreachable!`, out-of-bounds indexing) are embedded as
`none` / dedicated `panicked` results of `Option`/result types.  External
effects (the `png` codec calls, `File` operations, `crossterm` events) are
embedded as explicit parameters carrying the outcome of each external call.
-/

namespace Tie

/-- The subset of `tui::style::Color` the program manipulates: `Color::Rgb`
plus a single stand-in constructor for all non-Rgb variants (the program
treats every non-Rgb color as unreachable). -/
inductive TuiColor where
  | rgb (r g b : Nat) : TuiColor
  | nonRgb : TuiColor
deriving DecidableEq

/-- Model of `Rgb` from `src/image.rs`: three 8-bit channels. -/
structure Rgb where
  r : Nat
  g : Nat
  b : Nat
deriving DecidableEq

/-- Model of `Rgb::opposite` (`src/image.rs` lines 14-19): channel-wise `255 - c` on
`u8`; truncated `Nat` subtraction coincides with `u8` subtraction here since
each channel is at most 255. -/
def Rgb.opposite (c : Rgb) : Rgb :=
  Rgb.mk (255 - c.r) (255 - c.g) (255 - c.b)

/-- Model of `impl From<Rgb> for tui::style::Color` (`src/image.rs` lines 21-25). -/
def Rgb.toColor (c : Rgb) : TuiColor :=
  TuiColor.rgb c.r c.g c.b

/-- The `fg`/`bg` fields of `tui::style::Style` used by the program. -/
structure Style where
  fg : Option TuiColor
  bg : Option TuiColor
deriving DecidableEq

/-- Model of `tui::text::Span`: a content string styled with `Style`. -/
structure Span where
  content : List Char
  style : Style
deriving DecidableEq

/-- Model of `Image` from `src/image.rs`: remembered path, dimensions, and the
text-grid data (`Text.lines` is a vector of rows, each row a vector of
spans, one span per pixel). -/
structure Image where
  path : List Char
  width : Nat
  height : Nat
  data : List (List Span)
deriving DecidableEq

/-- The error enum of `src/image.rs` (payloads of the external error sources
are dropped: they are opaque values of external library types). -/
inductive ImageError where
  | ioError : ImageError
  | UnsupportedImgType : ImageError
  | Decode : ImageError
  | Encode : ImageError
deriving DecidableEq

/-- Model of `Image::CURSOR_STR`, the two-character cell glyph. -/
def cursorStr : List Char := ['[', ']']

/-- Rust's `slice::chunks(n)`: splits into consecutive chunks of length `n`,
the last chunk possibly shorter.  (Rust panics when `n = 0`; the program only
calls it with `n = 3 * width` and the result for `n = 0` is never relied on.) -/
def chunks (n : Nat) (l : List α) : List (List α) :=
  match l with
  | [] => []
  | a :: as =>
    if _h : n = 0 then []
    else (a :: as).take n :: chunks n ((a :: as).drop n)
termination_by l.length
decreasing_by
  simp only [List.length_drop, List.length_cons]
  omega

/-- One span of the decoded grid (`src/image.rs` lines 84-90): pixel `i` of a
row takes bytes `3*i .. 3*i+2` of the row's byte chunk and styles the glyph
with that color as both foreground and background. -/
def buildSpan (rgbs : List Nat) (i : Nat) : Span :=
  let color := TuiColor.rgb (rgbs.getD (3 * i) 0) (rgbs.getD (3 * i + 1) 0) (rgbs.getD (3 * i + 2) 0)
  Span.mk cursorStr (Style.mk (some color) (some color))

/-- One row of the decoded grid (`src/image.rs` lines 83-92). -/
def buildLine (width : Nat) (rgbs : List Nat) : List Span :=
  (List.range width).map (buildSpan rgbs)

/-- The grid construction of `Image::open` (`src/image.rs` lines 81-95):
chunk the decoded byte stream into rows of `3 * width` bytes and build one
line of spans per chunk. -/
def decodeText (width : Nat) (bytes : List Nat) : List (List Span) :=
  (chunks (3 * width) bytes).map (buildLine width)

/-- The successful tail of `Image::open` (`src/image.rs` lines 99-104): the
image built from the decoder's outputs. -/
def Image.openFromBytes (path : List Char) (width height : Nat) (bytes : List Nat) : Image :=
  Image.mk path width height (decodeText width bytes)

/-- Model of `Image::assert_coord` (`src/image.rs` lines 172-175) as a boolean test;
the source panics when it is false. -/
def Image.assert_coord (img : Image) (c : Nat × Nat) : Bool :=
  decide (c.1 < img.width) && decide (c.2 < img.height)

/-- Index into the grid: `self.data.lines[y].0[x]`.  `none` models the
out-of-bounds panic. -/
def Image.spanAt (img : Image) (c : Nat × Nat) : Option Span :=
  (img.data.get? c.2).bind (fun line => line.get? c.1)

/-- Model of `Image::bg_color` (`src/image.rs` lines 177-184): asserts the coordinate,
indexes the span, and panics (`none`) when the background color is absent. -/
def Image.bg_color (img : Image) (c : Nat × Nat) : Option TuiColor :=
  if img.assert_coord c then (img.spanAt c).bind (fun s => s.style.bg) else none

/-- The read side of `Image::fg_color_mut` (`src/image.rs` lines 195-202):
asserts the coordinate and panics (`none`) when the foreground color is
absent (the source's `unreachable!()` branch). -/
def Image.fg_color (img : Image) (c : Nat × Nat) : Option TuiColor :=
  if img.assert_coord c then (img.spanAt c).bind (fun s => s.style.fg) else none

/-- In-place update of one list element, as Rust's `v[i] = _` through a
mutable reference; indices past the end leave the list unchanged (the source
has already asserted the coordinate in every caller). -/
def setAt (l : List α) (i : Nat) (f : α → α) : List α :=
  match l, i with
  | [], _ => []
  | a :: as, 0 => f a :: as
  | a :: as, n + 1 => a :: setAt as n f

/-- Write `col` into the foreground color of the span at `c`
(the assignment through `Image::fg_color_mut`). -/
def setFgData (data : List (List Span)) (c : Nat × Nat) (col : TuiColor) : List (List Span) :=
  setAt data c.2 (fun line => setAt line c.1
    (fun s => Span.mk s.content (Style.mk (some col) s.style.bg)))

/-- Write `col` into the background color of the span at `c`
(the assignment through `Image::bg_color_mut`). -/
def setBgData (data : List (List Span)) (c : Nat × Nat) (col : TuiColor) : List (List Span) :=
  setAt data c.2 (fun line => setAt line c.1
    (fun s => Span.mk s.content (Style.mk s.style.fg (some col))))

/-- Model of `Image::paint` (`src/image.rs` lines 126-130): assert the coordinate,
then set the foreground and the background color of the cell to `color`.
`none` models the panics (failed assert, or an absent fg/bg color hit by the
`unreachable!()` branches of the `_mut` accessors). -/
def Image.paint (img : Image) (color : Rgb) (c : Nat × Nat) : Option Image :=
  if img.assert_coord c then
    match img.fg_color c, img.bg_color c with
    | some _, some _ =>
        some (Image.mk img.path img.width img.height
          (setBgData (setFgData img.data c color.toColor) c color.toColor))
    | _, _ => none
  else none

/-- Model of `Image::into_text_with_cursor` (`src/image.rs` lines 115-123): read the
background color at the cursor, require it to be Rgb (else `unreachable!()`),
and return the grid with the cursor cell's foreground replaced by the
opposite color.  `none` models the panics. -/
def Image.into_text_with_cursor (img : Image) (c : Nat × Nat) : Option (List (List Span)) :=
  match img.bg_color c with
  | some (TuiColor.rgb r g b) =>
    match img.fg_color c with
    | some _ => some (setFgData img.data c (Rgb.mk r g b).opposite.toColor)
    | none => none
  | _ => none

/-- Fallible map over a list: the shape of the program's nested `for` loops
that may panic at each element (`none` = some iteration panicked). -/
def optMap (f : α → Option β) : List α → Option (List β)
  | [] => some []
  | a :: as =>
    match f a, optMap f as with
    | some b, some bs => some (b :: bs)
    | _, _ => none

/-- The bytes contributed by one cell in `Image::rgb_vec`:
three channel bytes when the background is Rgb, a panic (`none`) otherwise
(the source's `unreachable!()`). -/
def rgbBytesOfColor : Option TuiColor → Option (List Nat)
  | some (TuiColor.rgb r g b) => some [r, g, b]
  | _ => none

/-- The inner `x` loop of `Image::rgb_vec` for a fixed row `y`. -/
def Image.rowVec (img : Image) (y : Nat) : Option (List Nat) :=
  (optMap (fun x => rgbBytesOfColor (img.bg_color (x, y))) (List.range img.width)).map List.flatten

/-- Model of `Image::rgb_vec` (`src/image.rs` lines 205-221): row-major traversal
pushing the background color's three bytes per cell. -/
def Image.rgb_vec (img : Image) : Option (List Nat) :=
  (optMap img.rowVec (List.range img.height)).map List.flatten

/-- Model of `save_as`/`save` in `src/image.rs`: outcomes of the three external calls
of a save operation (`File::create`, `Encoder::write_header`,
`Writer::write_image_data`), each an `Except` with an opaque error. -/
structure SaveEnv where
  create : Except Unit Unit
  write_header : Except Unit Unit
  write_image_data : Except Unit Unit

/-- Model of `Image::save_as` (`src/image.rs` lines 133-149): create the file, write
the PNG header, write `self.rgb_vec()`, and only then update the remembered
path.  The result pairs the returned `Result` with the post-state of the
image; the outer `none` models a panic inside `rgb_vec` (unreachable for the
images the program builds). -/
def Image.save_as (img : Image) (path : List Char) (env : SaveEnv) :
    Option (Except ImageError Unit × Image) :=
  match env.create with
  | Except.error _ => some (Except.error ImageError.ioError, img)
  | Except.ok _ =>
    match env.write_header with
    | Except.error _ => some (Except.error ImageError.Encode, img)
    | Except.ok _ =>
      match img.rgb_vec with
      | none => none
      | some _ =>
        match env.write_image_data with
        | Except.error _ => some (Except.error ImageError.Encode, img)
        | Except.ok _ =>
          some (Except.ok (), Image.mk path img.width img.height img.data)

/-- Model of `Image::save` (`src/image.rs` lines 151-166): identical pipeline but the
file is created at the image's own remembered path (`&self.path`) and no
state is changed (`&self` receiver). -/
def Image.save (img : Image) (env : SaveEnv) : Option (Except ImageError Unit) :=
  match env.create with
  | Except.error _ => some (Except.error ImageError.ioError)
  | Except.ok _ =>
    match env.write_header with
    | Except.error _ => some (Except.error ImageError.Encode)
    | Except.ok _ =>
      match img.rgb_vec with
      | none => none
      | some _ =>
        match env.write_image_data with
        | Except.error _ => some (Except.error ImageError.Encode)
        | Except.ok _ => some (Except.ok ())

/-- The path `Image::save` writes to: the image's remembered path. -/
def Image.save_target (img : Image) : List Char :=
  img.path

/-- Model of `png::ColorType`. -/
inductive PngColorType where
  | Grayscale | Rgb | Indexed | GrayscaleAlpha | Rgba
deriving DecidableEq

/-- Model of `png::BitDepth`. -/
inductive PngBitDepth where
  | One | Two | Four | Eight | Sixteen
deriving DecidableEq

/-- The fields of `png::OutputInfo` that `Image::open` reads. -/
structure FrameInfo where
  width : Nat
  height : Nat
  color_type : PngColorType
  bit_depth : PngBitDepth

/-- Outcomes of the external calls performed by `Image::open`:
`File::open`, `Decoder::read_info`, `Reader::next_frame` (whose success also
yields the frame info), the decoded bytes `buf[..info.buffer_size()]`, and
`File::sync_all`. -/
structure DecodeEnv where
  file_open : Except Unit Unit
  read_info : Except Unit Unit
  next_frame : Except Unit FrameInfo
  buf : List Nat
  sync_all : Except Unit Unit

/-- Results of `Image::open` including the panic outcome. -/
inductive OpenResult where
  | ok (img : Image)
  | err (e : ImageError)
  | panicked
deriving DecidableEq

/-- Model of `Image::open` (`src/image.rs` lines 57-105).  `File::open` failure maps
to `ioError`; `read_info` failure maps to `Decode`; the source calls
`.unwrap()` on `next_frame`, so a frame-level decoding failure is a panic,
not an error return; a non-RGB color type or non-8-bit depth yields
`UnsupportedImgType`; the `assert_eq!` on the byte count panics when the
decoder output size disagrees; `sync_all` failure maps to `ioError`. -/
def Image.open (path : List Char) (env : DecodeEnv) : OpenResult :=
  match env.file_open with
  | Except.error _ => OpenResult.err ImageError.ioError
  | Except.ok _ =>
    match env.read_info with
    | Except.error _ => OpenResult.err ImageError.Decode
    | Except.ok _ =>
      match env.next_frame with
      | Except.error _ => OpenResult.panicked
      | Except.ok info =>
        if info.color_type ≠ PngColorType.Rgb ∨ info.bit_depth ≠ PngBitDepth.Eight then
          OpenResult.err ImageError.UnsupportedImgType
        else if env.buf.length ≠ info.width * info.height * 3 then
          OpenResult.panicked
        else
          match env.sync_all with
          | Except.error _ => OpenResult.err ImageError.ioError
          | Except.ok _ =>
            OpenResult.ok (Image.openFromBytes path info.width info.height env.buf)

/-- Model of `Direction` from `src/command.rs`. -/
inductive Direction where
  | Up | Down | Left | Right
deriving DecidableEq

/-- Model of `PaletteCellID` from `src/widget/palette.rs` (six fixed slots). -/
inductive PaletteCellID where
  | ID0 | ID1 | ID2 | ID3 | ID4 | ID5
deriving DecidableEq

/-- The numeric index of a palette slot (`id as usize`). -/
def PaletteCellID.toIdx : PaletteCellID → Nat
  | PaletteCellID.ID0 => 0
  | PaletteCellID.ID1 => 1
  | PaletteCellID.ID2 => 2
  | PaletteCellID.ID3 => 3
  | PaletteCellID.ID4 => 4
  | PaletteCellID.ID5 => 5

/-- Model of `Command` from `src/command.rs` (paths embedded as character lists). -/
inductive Command where
  | Quit
  | Nop
  | Direction (d : Direction)
  | Palette (id : PaletteCellID)
  | SetPalette (id : PaletteCellID) (c : Rgb)
  | Save
  | SaveAs (path : List Char)
deriving DecidableEq

/-- Model of `Canvas` from `src/widget/canvas.rs`. -/
structure Canvas where
  image : Image
  cursor_coord : Nat × Nat
deriving DecidableEq

/-- Model of `Canvas::new` (`src/widget/canvas.rs` lines 26-31): cursor starts at the
origin. -/
def Canvas.new (image : Image) : Canvas :=
  Canvas.mk image (0, 0)

/-- Model of `Canvas::move_cursor` (`src/widget/canvas.rs` lines 34-57):
`saturating_sub 1` toward the origin, `saturating_add 1` then `min (dim - 1)`
away from it.  `Nat` subtraction is saturating subtraction. -/
def Canvas.move_cursor (c : Canvas) (dir : Direction) : Canvas :=
  match dir with
  | Direction.Up =>
      Canvas.mk c.image (c.cursor_coord.1, c.cursor_coord.2 - 1)
  | Direction.Down =>
      Canvas.mk c.image (c.cursor_coord.1, min (c.cursor_coord.2 + 1) (c.image.height - 1))
  | Direction.Left =>
      Canvas.mk c.image (c.cursor_coord.1 - 1, c.cursor_coord.2)
  | Direction.Right =>
      Canvas.mk c.image (min (c.cursor_coord.1 + 1) (c.image.width - 1), c.cursor_coord.2)

/-- Model of `Canvas::paint` (`src/widget/canvas.rs` lines 70-72): paint the pixel at
the cursor. -/
def Canvas.paint (c : Canvas) (color : Rgb) : Option Canvas :=
  (c.image.paint color c.cursor_coord).map (fun img => Canvas.mk img c.cursor_coord)

/-- Iterated cursor movement in one direction. -/
def Canvas.moveN (c : Canvas) (dir : Direction) : Nat → Canvas
  | 0 => c
  | n + 1 => (c.moveN dir n).move_cursor dir

/-- Model of `crossterm::event::KeyCode`, restricted to the constructors the program
distinguishes plus a stand-in for every other key. -/
inductive KeyCode where
  | enter
  | backspace
  | char (c : Char)
  | otherKey
deriving DecidableEq

/-- Model of `crossterm::event::Event`: a key event (modifiers are ignored by the
program, which only reads `key.code`) or any non-key event. -/
inductive Event where
  | key (code : KeyCode)
  | nonKey
deriving DecidableEq

/-- Model of `KeyConfig` from `src/command/keyinput/keyconfig.rs`: the Normal-mode
keybinding table, the command-line prefix character, and the slot-to-char
array (the `HashMap` is embedded as an association list; its keys are
distinct). -/
structure KeyConfig where
  config : List (KeyCode × Command)
  cmd_line_prefix_char : Char
  palette_id2char : List Char
deriving DecidableEq

/-- Model of `KeyConfig::get`. -/
def KeyConfig.get (kc : KeyConfig) (k : KeyCode) : Option Command :=
  kc.config.lookup k

/-- Model of `KeyConfig::char2palette_cell_id`: scan the six slot ids in order and
return the first whose configured character is `ch`. -/
def KeyConfig.char2palette_cell_id (kc : KeyConfig) (ch : Char) : Option PaletteCellID :=
  [PaletteCellID.ID0, PaletteCellID.ID1, PaletteCellID.ID2,
   PaletteCellID.ID3, PaletteCellID.ID4, PaletteCellID.ID5].find?
    (fun id => kc.palette_id2char.getD id.toIdx ' ' == ch)

/-- Model of `KeyConfig::default` (`src/command/keyinput/keyconfig.rs` lines 39-61). -/
def KeyConfig.default : KeyConfig :=
  KeyConfig.mk
    [(KeyCode.char 'q', Command.Quit),
     (KeyCode.char 'h', Command.Direction Direction.Left),
     (KeyCode.char 'j', Command.Direction Direction.Down),
     (KeyCode.char 'k', Command.Direction Direction.Up),
     (KeyCode.char 'l', Command.Direction Direction.Right),
     (KeyCode.char 'w', Command.Palette PaletteCellID.ID0),
     (KeyCode.char 'e', Command.Palette PaletteCellID.ID1),
     (KeyCode.char 'r', Command.Palette PaletteCellID.ID2),
     (KeyCode.char 's', Command.Palette PaletteCellID.ID3),
     (KeyCode.char 'd', Command.Palette PaletteCellID.ID4),
     (KeyCode.char 'f', Command.Palette PaletteCellID.ID5)]
    ':'
    ['w', 'e', 'r', 's', 'd', 'f']

/-- Model of `KeyInput` from `src/command/keyinput.rs`: the accumulated command line
(as characters) and the key configuration. -/
structure KeyInput where
  cmd_line_content : List Char
  key_config : KeyConfig
deriving DecidableEq

/-- Model of `KeyInput::new` (`src/command/keyinput.rs` lines 25-33). -/
def KeyInput.new : KeyInput :=
  KeyInput.mk [] KeyConfig.default

/-- Drop the leading run of space characters: the regex fragment " *". -/
def dropSpaces (l : List Char) : List Char :=
  l.dropWhile (fun c => c == ' ')

/-- The regex class "\\s": the regex crate matches it against the Unicode
White_Space property (U+0009..U+000D, space, U+0085, U+00A0, U+1680,
U+2000..U+200A, U+2028, U+2029, U+202F, U+205F, U+3000), so its complement
is exactly what "\\S" accepts. -/
def isWsChar (c : Char) : Bool :=
  (decide (0x09 ≤ c.toNat) && decide (c.toNat ≤ 0x0D)) ||
  decide (c.toNat = 0x20) || decide (c.toNat = 0x85) || decide (c.toNat = 0xA0) ||
  decide (c.toNat = 0x1680) ||
  (decide (0x2000 ≤ c.toNat) && decide (c.toNat ≤ 0x200A)) ||
  decide (c.toNat = 0x2028) || decide (c.toNat = 0x2029) ||
  decide (c.toNat = 0x202F) || decide (c.toNat = 0x205F) || decide (c.toNat = 0x3000)

/-- The regex class "\\w" (word character). -/
def isWordChar (c : Char) : Bool :=
  c.isAlphanum || c == '_'

/-- The regex class "\\d" (decimal digit). -/
def isDigitChar (c : Char) : Bool :=
  c.isDigit

/-- The regex fragment " +": require at least one space, then drop the rest
of the run. -/
def expectSpaces1 : List Char → Option (List Char)
  | ' ' :: r => some (dropSpaces r)
  | _ => none

/-- The regex fragment "(\\d+)": take a nonempty maximal run of digits,
returning it with the remainder. -/
def takeDigits1 (l : List Char) : Option (List Char × List Char) :=
  match l.takeWhile isDigitChar with
  | [] => none
  | ds => some (ds, l.dropWhile isDigitChar)

/-- Rust's `str::parse::<u8>()` on a nonempty all-digit capture: its decimal
value when it fits in `u8`, failure otherwise (overflow errors at any
longer prefix also exceed 255, so the value test is equivalent). -/
def parseU8 (ds : List Char) : Option Nat :=
  let v := ds.foldl (fun a c => a * 10 + (c.toNat - '0'.toNat)) 0
  if v ≤ 255 then some v else none

/-- Model of `KeyInput::try_parse_quit` (`src/command/keyinput.rs` lines 81-84): the
regex `^: *q *$`, matched structurally (the space runs and the literals are
disjoint, so the regex is equivalent to this greedy scan). -/
def KeyInput.try_parse_quit (ki : KeyInput) : Option Command :=
  match ki.cmd_line_content with
  | ':' :: rest =>
    match dropSpaces rest with
    | 'q' :: r2 => if dropSpaces r2 = [] then some Command.Quit else none
    | _ => none
  | _ => none

/-- Model of `KeyInput::try_parse_save` (`src/command/keyinput.rs` lines 66-69): the
regex `^: *w *$`. -/
def KeyInput.try_parse_save (ki : KeyInput) : Option Command :=
  match ki.cmd_line_content with
  | ':' :: rest =>
    match dropSpaces rest with
    | 'w' :: r2 => if dropSpaces r2 = [] then some Command.Save else none
    | _ => none
  | _ => none

/-- Model of `KeyInput::try_parse_save_as` (`src/command/keyinput.rs` lines 72-78):
the regex `^: *w +(\S+) *$`; the captured path is the maximal nonempty run of
non-whitespace after the spaces. -/
def KeyInput.try_parse_save_as (ki : KeyInput) : Option Command :=
  match ki.cmd_line_content with
  | ':' :: rest =>
    match dropSpaces rest with
    | 'w' :: r2 =>
      match expectSpaces1 r2 with
      | some r3 =>
        match r3.takeWhile (fun c => !(isWsChar c)) with
        | [] => none
        | tok =>
          if dropSpaces (r3.dropWhile (fun c => !(isWsChar c))) = [] then
            some (Command.SaveAs tok)
          else none
      | none => none
    | _ => none
  | _ => none

/-- Model of `KeyInput::try_parse_set_palette` (`src/command/keyinput.rs` lines
46-63): the regex `^: *set +(\w) +(\d+) +(\d+) +(\d+) *$`, then the captures
are resolved — the slot character through the reverse keybinding table, the
three channels through `u8` parsing — and any resolution failure makes the
whole parse fail. -/
def KeyInput.try_parse_set_palette (ki : KeyInput) : Option Command :=
  match ki.cmd_line_content with
  | ':' :: rest =>
    match dropSpaces rest with
    | 's' :: 'e' :: 't' :: r2 =>
      match expectSpaces1 r2 with
      | some (ch :: r4) =>
        if isWordChar ch then
          match expectSpaces1 r4 with
          | some r5 =>
            match takeDigits1 r5 with
            | some (d1, r6) =>
              match expectSpaces1 r6 with
              | some r7 =>
                match takeDigits1 r7 with
                | some (d2, r8) =>
                  match expectSpaces1 r8 with
                  | some r9 =>
                    match takeDigits1 r9 with
                    | some (d3, r10) =>
                      if dropSpaces r10 = [] then
                        match ki.key_config.char2palette_cell_id ch,
                            parseU8 d1, parseU8 d2, parseU8 d3 with
                        | some id, some r, some g, some b =>
                          some (Command.SetPalette id (Rgb.mk r g b))
                        | _, _, _, _ => none
                      else none
                    | none => none
                  | none => none
                | none => none
              | none => none
            | none => none
          | none => none
        else none
      | some [] => none
      | none => none
    | _ => none
  | _ => none

/-- Model of `KeyInput::parse_cmd_line` (`src/command/keyinput.rs` lines 37-43): try
quit, save, save-as, set-palette in that order; the first match wins, and no
match degrades to `Nop`. -/
def KeyInput.parse_cmd_line (ki : KeyInput) : Command :=
  (((ki.try_parse_quit.orElse (fun _ => ki.try_parse_save)).orElse
      (fun _ => ki.try_parse_save_as)).orElse
      (fun _ => ki.try_parse_set_palette)).getD Command.Nop

/-- Model of `KeyInput::update_cmd_line_content` (`src/command/keyinput.rs` lines
89-106): Enter parses the line and clears the buffer, a character is pushed,
Backspace pops, anything else is ignored. -/
def KeyInput.update_cmd_line_content (ki : KeyInput) (keycode : KeyCode) : KeyInput × Command :=
  match keycode with
  | KeyCode.enter =>
      (KeyInput.mk [] ki.key_config, ki.parse_cmd_line)
  | KeyCode.char ch =>
      (KeyInput.mk (ki.cmd_line_content ++ [ch]) ki.key_config, Command.Nop)
  | KeyCode.backspace =>
      (KeyInput.mk ki.cmd_line_content.dropLast ki.key_config, Command.Nop)
  | _ => (ki, Command.Nop)

/-- Model of `KeyInput::read` (`src/command/keyinput.rs` lines 141-166) applied to one
incoming event: with an empty buffer, the literal character ':' starts the
command line and any other key goes through the keybinding table; with a
nonempty buffer, key events feed `update_cmd_line_content`; non-key events
are ignored. -/
def KeyInput.read (ki : KeyInput) (ev : Event) : KeyInput × Command :=
  if ki.cmd_line_content = [] then
    match ev with
    | Event.key k =>
      if k = KeyCode.char ':' then
        (KeyInput.mk (ki.cmd_line_content ++ [':']) ki.key_config, Command.Nop)
      else
        (ki, (ki.key_config.get k).getD Command.Nop)
    | Event.nonKey => (ki, Command.Nop)
  else
    match ev with
    | Event.key k => ki.update_cmd_line_content k
    | Event.nonKey => (ki, Command.Nop)

/-- The input machine's mode, as the specification models it: `Normal` when
the accumulated buffer is empty, `CommandLine` otherwise. -/
inductive Mode where
  | Normal
  | CommandLine
deriving DecidableEq

/-- The mode of a `KeyInput` state. -/
def KeyInput.mode (ki : KeyInput) : Mode :=
  if ki.cmd_line_content = [] then Mode.Normal else Mode.CommandLine

/-- Run the input machine over a list of events, keeping only the state. -/
def KeyInput.runEvents (ki : KeyInput) (evs : List Event) : KeyInput :=
  evs.foldl (fun s ev => (s.read ev).1) ki

/-- A `KeyInput` over the default key configuration with the given
accumulated line, as the unit tests' `new_key_input` helper builds. -/
def mkKeyInput (s : String) : KeyInput :=
  KeyInput.mk s.toList KeyConfig.default

/-- Span lookup on a raw grid (`data.lines[y].0[x]`). -/
def dataSpanAt (data : List (List Span)) (c : Nat × Nat) : Option Span :=
  (data.get? c.2).bind (fun line => line.get? c.1)

/-- Foreground color of a cell of a raw grid (as a rendered projection). -/
def dataFg (data : List (List Span)) (c : Nat × Nat) : Option TuiColor :=
  (dataSpanAt data c).bind (fun s => s.style.fg)

/-- Background color of a cell of a raw grid (as a rendered projection). -/
def dataBg (data : List (List Span)) (c : Nat × Nat) : Option TuiColor :=
  (dataSpanAt data c).bind (fun s => s.style.bg)

/-- A run of `n` space characters. -/
def spacesL (n : Nat) : List Char :=
  List.replicate n ' '

/-- A concrete two-pixel image (width 2, height 1) with explicit span data,
used to instantiate theorems on a computable input. -/
def sampleImage : Image :=
  Image.mk [] 2 1
    [[Span.mk cursorStr (Style.mk (some (TuiColor.rgb 1 2 3)) (some (TuiColor.rgb 1 2 3))),
      Span.mk cursorStr (Style.mk (some (TuiColor.rgb 4 5 6)) (some (TuiColor.rgb 4 5 6)))]]

/-- C5: the `Image::open` error contract.  The code violates the claim: on a
PNG whose signature and header decode (`read_info` succeeds) but whose image
data stream is corrupt, `next_frame` fails and the source unwraps it,
panicking instead of returning `Err(Decode)`. -/
theorem open_panics_on_frame_decode_error :
    Image.open ['p']
      (DecodeEnv.mk (Except.ok ()) (Except.ok ()) (Except.error ()) [] (Except.ok ())) =
      OpenResult.panicked := rfl

theorem move_cursor_image (c : Canvas) (dir : Direction) :
    (c.move_cursor dir).image = c.image := by
  cases dir <;> rfl

theorem moveN_image (c : Canvas) (dir : Direction) (n : Nat) :
    (c.moveN dir n).image = c.image := by
  induction n with
  | zero => rfl
  | succ n ih => rw [Canvas.moveN, move_cursor_image, ih]

theorem moveN_left_origin (img : Image) (n : Nat) :
    ((Canvas.new img).moveN Direction.Left n).cursor_coord = (0, 0) := by
  induction n with
  | zero => rfl
  | succ n ih =>
    rw [Canvas.moveN, Canvas.move_cursor]
    simp only [ih]

theorem moveN_up_origin (img : Image) (n : Nat) :
    ((Canvas.new img).moveN Direction.Up n).cursor_coord = (0, 0) := by
  induction n with
  | zero => rfl
  | succ n ih =>
    rw [Canvas.moveN, Canvas.move_cursor]
    simp only [ih]

theorem new_image (img : Image) : (Canvas.new img).image = img := rfl

theorem moveN_right_cursor (img : Image) (n : Nat) :
    ((Canvas.new img).moveN Direction.Right n).cursor_coord = (min n (img.width - 1), 0) := by
  induction n with
  | zero => simp [Canvas.moveN, Canvas.new]
  | succ n ih =>
    rw [Canvas.moveN]
    simp only [Canvas.move_cursor, moveN_image, new_image, ih, Prod.mk.injEq]
    exact ⟨by omega, trivial⟩

theorem moveN_down_cursor (img : Image) (n : Nat) :
    ((Canvas.new img).moveN Direction.Down n).cursor_coord = (0, min n (img.height - 1)) := by
  induction n with
  | zero => simp [Canvas.moveN, Canvas.new]
  | succ n ih =>
    rw [Canvas.moveN]
    simp only [Canvas.move_cursor, moveN_image, new_image, ih, Prod.mk.injEq]
    exact ⟨trivial, by omega⟩

/-- C6: clamped cursor movement.  One move adjusts exactly one axis —
`saturating_sub 1` toward the origin, `min (dim - 1) (coord + 1)` away from
it — never errors, and keeps an in-bounds cursor in bounds; from the origin,
any number of Left or Up moves stays at the origin, and `width + k` Right
moves (`k ≥ 1`) land on `(width - 1, 0)`, symmetrically for Down. -/
theorem canvas_move_cursor_clamped (c : Canvas) (img : Image) (n k : Nat)
    (hx : c.cursor_coord.1 < c.image.width) (hy : c.cursor_coord.2 < c.image.height)
    (hk : 1 ≤ k) :
    (∀ dir, (c.move_cursor dir).image = c.image) ∧
    (c.move_cursor Direction.Left).cursor_coord = (c.cursor_coord.1 - 1, c.cursor_coord.2) ∧
    (c.move_cursor Direction.Right).cursor_coord =
      (min (c.cursor_coord.1 + 1) (c.image.width - 1), c.cursor_coord.2) ∧
    (c.move_cursor Direction.Up).cursor_coord = (c.cursor_coord.1, c.cursor_coord.2 - 1) ∧
    (c.move_cursor Direction.Down).cursor_coord =
      (c.cursor_coord.1, min (c.cursor_coord.2 + 1) (c.image.height - 1)) ∧
    (∀ dir, (c.move_cursor dir).cursor_coord.1 < c.image.width ∧
            (c.move_cursor dir).cursor_coord.2 < c.image.height) ∧
    ((Canvas.new img).moveN Direction.Left n).cursor_coord = (0, 0) ∧
    ((Canvas.new img).moveN Direction.Up n).cursor_coord = (0, 0) ∧
    ((Canvas.new img).moveN Direction.Right (img.width + k)).cursor_coord = (img.width - 1, 0) ∧
    ((Canvas.new img).moveN Direction.Down (img.height + k)).cursor_coord = (0, img.height - 1) := by
  refine ⟨move_cursor_image c, rfl, rfl, rfl, rfl, ?_, moveN_left_origin img n,
    moveN_up_origin img n, ?_, ?_⟩
  · intro dir
    cases dir <;> simp [Canvas.move_cursor] <;> omega
  · rw [moveN_right_cursor]
    have : min (img.width + k) (img.width - 1) = img.width - 1 := by omega
    rw [this]
  · rw [moveN_down_cursor]
    have : min (img.height + k) (img.height - 1) = img.height - 1 := by omega
    rw [this]

theorem canvas_move_cursor_clamped_witness :
    ((Canvas.mk (Image.mk [] 5 2 []) (0, 0)).move_cursor Direction.Right).cursor_coord =
      (min (0 + 1) (5 - 1), 0) ∧
    ((Canvas.new (Image.mk [] 5 2 [])).moveN Direction.Right (5 + 1)).cursor_coord = (5 - 1, 0) := by
  have h := canvas_move_cursor_clamped (Canvas.mk (Image.mk [] 5 2 []) (0, 0))
    (Image.mk [] 5 2 []) 3 1 (by decide) (by decide) (by decide)
  exact ⟨h.2.2.1, h.2.2.2.2.2.2.2.2.1⟩

/-- C10: atomicity of `save_as`.  Whenever `save_as` returns an error — file
creation, header write, or image-data write failed — the image (in
particular its remembered path) is unchanged; the remembered path becomes
the new path exactly when `save_as` returns `Ok`, so a subsequent plain
`save` (which writes to `save_target`, the remembered path) targets the new
path only after a successful `save_as`. -/
theorem save_as_atomic (img : Image) (path : List Char) (env : SaveEnv)
    (res : Except ImageError Unit × Image)
    (h : img.save_as path env = some res) :
    (∀ e, res.1 = Except.error e → res.2 = img) ∧
    (res.1 = Except.ok () →
      res.2.path = path ∧ res.2.width = img.width ∧ res.2.height = img.height ∧
      res.2.data = img.data ∧ res.2.save_target = path) := by
  rcases env with ⟨create, hdr, wr⟩
  cases create with
  | error e0 =>
    simp only [Image.save_as, Option.some.injEq] at h
    subst h
    exact ⟨fun _ _ => rfl, by intro hok; cases hok⟩
  | ok u0 =>
    cases hdr with
    | error e1 =>
      simp only [Image.save_as, Option.some.injEq] at h
      subst h
      exact ⟨fun _ _ => rfl, by intro hok; cases hok⟩
    | ok u1 =>
      cases hrv : img.rgb_vec with
      | none => simp [Image.save_as, hrv] at h
      | some bytes =>
        cases wr with
        | error e2 =>
          simp only [Image.save_as, hrv, Option.some.injEq] at h
          subst h
          exact ⟨fun _ _ => rfl, by intro hok; cases hok⟩
        | ok u2 =>
          simp only [Image.save_as, hrv, Option.some.injEq] at h
          subst h
          constructor
          · intro e he
            cases he
          · intro hok
            exact ⟨rfl, rfl, rfl, rfl, rfl⟩

theorem save_as_atomic_witness :
    ((Except.error ImageError.ioError : Except ImageError Unit),
      Image.mk [] 0 0 ([] : List (List Span))).2 = Image.mk [] 0 0 ([] : List (List Span)) :=
  (save_as_atomic (Image.mk [] 0 0 []) ['x']
      (SaveEnv.mk (Except.error ()) (Except.ok ()) (Except.ok ()))
      ((Except.error ImageError.ioError : Except ImageError Unit), Image.mk [] 0 0 []) rfl).1
    ImageError.ioError rfl

/-- C4 (amended): mode transitions of the input machine.  From `Normal`
(empty buffer) the machine enters `CommandLine` exactly on the prefix key
':'.  From `CommandLine` it returns to `Normal` exactly when Enter is
processed (regardless of whether the grammar matched) or when Backspace is
processed with a buffer of length one — the source's mode is buffer
non-emptiness, and popping the last remaining character also exits the
mode.  No other key changes the mode in either direction. -/
theorem mode_transition_characterization (ki : KeyInput) (ev : Event) :
    (ki.mode = Mode.Normal →
      ((ki.read ev).1.mode = Mode.CommandLine ↔ ev = Event.key (KeyCode.char ':'))) ∧
    (ki.mode = Mode.CommandLine →
      ((ki.read ev).1.mode = Mode.Normal ↔
        (ev = Event.key KeyCode.enter ∨
          (ev = Event.key KeyCode.backspace ∧ ki.cmd_line_content.length = 1)))) := by
  constructor
  · intro hn
    have hc : ki.cmd_line_content = [] := by
      by_contra hne
      simp [KeyInput.mode, hne] at hn
    cases ev with
    | nonKey => simp [KeyInput.read, hc, KeyInput.mode]
    | key k =>
      by_cases hk : k = KeyCode.char ':'
      · subst hk
        simp [KeyInput.read, hc, KeyInput.mode]
      · simp [KeyInput.read, hc, KeyInput.mode, hk]
  · intro hcl
    have hc : ki.cmd_line_content ≠ [] := by
      intro he
      simp [KeyInput.mode, he] at hcl
    have hlen : ki.cmd_line_content.length ≠ 0 := by
      simpa [List.length_eq_zero] using hc
    cases ev with
    | nonKey => simp [KeyInput.read, hc, KeyInput.mode]
    | key k =>
      cases k with
      | enter => simp [KeyInput.read, hc, KeyInput.update_cmd_line_content, KeyInput.mode]
      | char ch => simp [KeyInput.read, hc, KeyInput.update_cmd_line_content, KeyInput.mode]
      | backspace =>
        simp only [KeyInput.read, if_neg hc, KeyInput.update_cmd_line_content, KeyInput.mode]
        have hiff : ki.cmd_line_content.dropLast = [] ↔ ki.cmd_line_content.length = 1 := by
          rw [← List.length_eq_zero, List.length_dropLast]
          omega
        by_cases h1 : ki.cmd_line_content.length = 1
        · simp [hiff, h1]
        · simp [hiff, h1]
      | otherKey =>
        simp [KeyInput.read, hc, KeyInput.update_cmd_line_content, KeyInput.mode]

/-- C4 counterexample: from the reachable state entered by pressing ':',
pressing Backspace (not Enter) also returns the machine to `Normal`. -/
theorem mode_exit_without_enter :
    (KeyInput.new.read (Event.key (KeyCode.char ':'))).1.mode = Mode.CommandLine ∧
    (((KeyInput.new.read (Event.key (KeyCode.char ':'))).1.read
        (Event.key KeyCode.backspace)).1.mode = Mode.Normal) ∧
    Event.key KeyCode.backspace ≠ Event.key KeyCode.enter := by
  exact ⟨rfl, rfl, by decide⟩

theorem mode_transition_characterization_witness :
    ((mkKeyInput ":").read (Event.key KeyCode.backspace)).1.mode = Mode.Normal :=
  ((mode_transition_characterization (mkKeyInput ":") (Event.key KeyCode.backspace)).2
      (by decide)).mpr (Or.inr (by decide))

theorem read_preserves_colon_head (ki : KeyInput) (ev : Event)
    (h : ki.cmd_line_content = [] ∨ ki.cmd_line_content.head? = some ':') :
    (ki.read ev).1.cmd_line_content = [] ∨ (ki.read ev).1.cmd_line_content.head? = some ':' := by
  rcases hc : ki.cmd_line_content with _ | ⟨a, t⟩
  · cases ev with
    | nonKey => simp [KeyInput.read, hc]
    | key k =>
      by_cases hk : k = KeyCode.char ':'
      · subst hk
        simp [KeyInput.read, hc]
      · simp [KeyInput.read, hc, hk]
  · have ha : a = ':' := by
      rcases h with h0 | h0
      · rw [hc] at h0
        cases h0
      · rw [hc] at h0
        simpa using h0
    subst ha
    cases ev with
    | nonKey => simp [KeyInput.read, hc]
    | key k =>
      cases k with
      | enter => simp [KeyInput.read, hc, KeyInput.update_cmd_line_content]
      | char ch => simp [KeyInput.read, hc, KeyInput.update_cmd_line_content]
      | backspace =>
        simp only [KeyInput.read, hc, KeyInput.update_cmd_line_content]
        cases t with
        | nil => simp
        | cons b t' => simp [List.dropLast]
      | otherKey => simp [KeyInput.read, hc, KeyInput.update_cmd_line_content]

theorem runEvents_colon_head (evs : List Event) (ki : KeyInput)
    (h : ki.cmd_line_content = [] ∨ ki.cmd_line_content.head? = some ':') :
    (ki.runEvents evs).cmd_line_content = [] ∨
      (ki.runEvents evs).cmd_line_content.head? = some ':' := by
  induction evs generalizing ki with
  | nil => exact h
  | cons ev evs ih => exact ih (ki.read ev).1 (read_preserves_colon_head ki ev h)

/-- C8: in every state the input machine reaches from the initial
empty-buffer state by processing key events, a nonempty accumulated buffer
(CommandLine mode) starts with the command prefix character ':'. -/
theorem cmd_line_starts_with_colon (evs : List Event)
    (hne : (KeyInput.new.runEvents evs).cmd_line_content ≠ []) :
    (KeyInput.new.runEvents evs).cmd_line_content.head? = some ':' := by
  rcases runEvents_colon_head evs KeyInput.new (Or.inl rfl) with h | h
  · exact absurd h hne
  · exact h

theorem cmd_line_starts_with_colon_witness :
    (KeyInput.new.runEvents
        [Event.key (KeyCode.char ':'), Event.key (KeyCode.char 'q')]).cmd_line_content.head? =
      some ':' :=
  cmd_line_starts_with_colon
    [Event.key (KeyCode.char ':'), Event.key (KeyCode.char 'q')] (by decide)

theorem parse_of_quit (ki : KeyInput) (c : Command)
    (h : ki.try_parse_quit = some c) : ki.parse_cmd_line = c := by
  unfold KeyInput.parse_cmd_line
  rw [h]
  rfl

theorem parse_of_save (ki : KeyInput) (c : Command)
    (hq : ki.try_parse_quit = none) (h : ki.try_parse_save = some c) :
    ki.parse_cmd_line = c := by
  unfold KeyInput.parse_cmd_line
  rw [hq, h]
  rfl

theorem parse_of_save_as (ki : KeyInput) (c : Command)
    (hq : ki.try_parse_quit = none) (hs : ki.try_parse_save = none)
    (h : ki.try_parse_save_as = some c) : ki.parse_cmd_line = c := by
  unfold KeyInput.parse_cmd_line
  rw [hq, hs, h]
  rfl

theorem parse_of_set_palette (ki : KeyInput) (c : Command)
    (hq : ki.try_parse_quit = none) (hs : ki.try_parse_save = none)
    (ha : ki.try_parse_save_as = none) (h : ki.try_parse_set_palette = some c) :
    ki.parse_cmd_line = c := by
  unfold KeyInput.parse_cmd_line
  rw [hq, hs, ha, h]
  rfl

theorem parse_of_no_match (ki : KeyInput)
    (hq : ki.try_parse_quit = none) (hs : ki.try_parse_save = none)
    (ha : ki.try_parse_save_as = none) (hp : ki.try_parse_set_palette = none) :
    ki.parse_cmd_line = Command.Nop := by
  unfold KeyInput.parse_cmd_line
  rw [hq, hs, ha, hp]
  rfl

/-- C3: the command-line parser tries the patterns quit, save, save-as,
set-palette in order with the first match winning, degrades to `Nop` when
no pattern matches, and satisfies the acceptance table of the
specification (including out-of-range channels and unknown slot
characters degrading to `Nop`). -/
theorem parse_cmd_line_table :
    (∀ ki : KeyInput,
      (∀ c, ki.try_parse_quit = some c → ki.parse_cmd_line = c) ∧
      (ki.try_parse_quit = none →
        ∀ c, ki.try_parse_save = some c → ki.parse_cmd_line = c) ∧
      (ki.try_parse_quit = none → ki.try_parse_save = none →
        ∀ c, ki.try_parse_save_as = some c → ki.parse_cmd_line = c) ∧
      (ki.try_parse_quit = none → ki.try_parse_save = none →
        ki.try_parse_save_as = none →
        ∀ c, ki.try_parse_set_palette = some c → ki.parse_cmd_line = c) ∧
      (ki.try_parse_quit = none → ki.try_parse_save = none →
        ki.try_parse_save_as = none → ki.try_parse_set_palette = none →
        ki.parse_cmd_line = Command.Nop)) ∧
    (mkKeyInput ":q").parse_cmd_line = Command.Quit ∧
    (mkKeyInput ":w").parse_cmd_line = Command.Save ∧
    (mkKeyInput ":w path/to/file.png").parse_cmd_line =
      Command.SaveAs ("path/to/file.png".toList) ∧
    (mkKeyInput ":set w 255 255 128").parse_cmd_line =
      Command.SetPalette PaletteCellID.ID0 (Rgb.mk 255 255 128) ∧
    (mkKeyInput ":  set  w 255   255  128  ").parse_cmd_line =
      Command.SetPalette PaletteCellID.ID0 (Rgb.mk 255 255 128) ∧
    (mkKeyInput ":  set  w 255   255  128  ;").parse_cmd_line = Command.Nop ∧
    (mkKeyInput ":set w 999 255 128").parse_cmd_line = Command.Nop ∧
    (mkKeyInput ":set W 255 255 128").parse_cmd_line = Command.Nop ∧
    (mkKeyInput "hello").parse_cmd_line = Command.Nop := by
  refine ⟨fun ki => ⟨parse_of_quit ki, ?_, ?_, ?_, ?_⟩, ?_, ?_, ?_, ?_, ?_, ?_, ?_, ?_, ?_⟩
  · intro hq c h
    exact parse_of_save ki c hq h
  · intro hq hs c h
    exact parse_of_save_as ki c hq hs h
  · intro hq hs ha c h
    exact parse_of_set_palette ki c hq hs ha h
  · intro hq hs ha hp
    exact parse_of_no_match ki hq hs ha hp
  · decide
  · decide
  · decide
  · decide
  · decide
  · decide
  · decide
  · decide
  · decide

theorem parse_cmd_line_table_witness :
    (mkKeyInput ":q").parse_cmd_line = Command.Quit :=
  (parse_cmd_line_table.1 (mkKeyInput ":q")).1 Command.Quit (by decide)

theorem dropSpaces_space_cons (l : List Char) : dropSpaces (' ' :: l) = dropSpaces l := by
  simp [dropSpaces]

theorem dropSpaces_cons_ne (c : Char) (l : List Char) (h : (c == ' ') = false) :
    dropSpaces (c :: l) = c :: l := by
  simp [dropSpaces, List.dropWhile_cons, h]

theorem dropSpaces_spacesL_append (n : Nat) (l : List Char) :
    dropSpaces (spacesL n ++ l) = dropSpaces l := by
  induction n with
  | zero => rfl
  | succ n ih =>
    show dropSpaces ((' ' :: spacesL n) ++ l) = dropSpaces l
    rw [List.cons_append, dropSpaces_space_cons, ih]

theorem dropSpaces_spacesL (n : Nat) : dropSpaces (spacesL n) = [] := by
  simpa using dropSpaces_spacesL_append n []

theorem dropSpaces_shape (n : Nat) (c : Char) (l : List Char) (h : (c == ' ') = false) :
    dropSpaces (spacesL n ++ c :: l) = c :: l := by
  rw [dropSpaces_spacesL_append, dropSpaces_cons_ne c l h]

theorem takeWhile_split (p : Char → Bool) (xs ys : List Char)
    (hall : ∀ x ∈ xs, p x = true)
    (hys : ∀ y ys', ys = y :: ys' → p y = false) :
    (xs ++ ys).takeWhile p = xs ∧ (xs ++ ys).dropWhile p = ys := by
  induction xs with
  | nil =>
    simp only [List.nil_append]
    cases ys with
    | nil => simp
    | cons y ys' =>
      have hy := hys y ys' rfl
      simp [List.takeWhile_cons, List.dropWhile_cons, hy]
  | cons x xs ih =>
    have hx : p x = true := hall x (by simp)
    have ihh := ih (fun a ha => hall a (by simp [ha]))
    simp [List.takeWhile_cons, List.dropWhile_cons, hx, ihh.1, ihh.2]

theorem not_space_of_not_ws (c : Char) (h : isWsChar c = false) : (c == ' ') = false := by
  cases hb : (c == ' ') with
  | false => rfl
  | true =>
    have hc : c = ' ' := by simpa using hb
    subst hc
    exact absurd h (by decide)

theorem not_space_of_digit (c : Char) (h : isDigitChar c = true) : (c == ' ') = false := by
  cases hb : (c == ' ') with
  | false => rfl
  | true =>
    have hc : c = ' ' := by simpa using hb
    subst hc
    exact absurd h (by decide)

theorem not_space_of_word (c : Char) (h : isWordChar c = true) : (c == ' ') = false := by
  cases hb : (c == ' ') with
  | false => rfl
  | true =>
    have hc : c = ' ' := by simpa using hb
    subst hc
    exact absurd h (by decide)

theorem head_of_spacesL (k : Nat) (y : Char) (ys' : List Char)
    (h : spacesL k = y :: ys') : y = ' ' := by
  cases k with
  | zero => cases h
  | succ k =>
    rw [spacesL, List.replicate_succ] at h
    exact (List.cons.injEq ..).mp h |>.1.symm

theorem head_of_spacesL_succ_append (m : Nat) (tail : List Char) (y : Char) (ys' : List Char)
    (h : spacesL (m + 1) ++ tail = y :: ys') : y = ' ' := by
  rw [spacesL, List.replicate_succ, List.cons_append] at h
  exact (List.cons.injEq ..).mp h |>.1.symm

theorem expectSpaces1_shape (m : Nat) (l : List Char) :
    expectSpaces1 (spacesL (m + 1) ++ l) = some (dropSpaces l) := by
  show expectSpaces1 ((' ' :: spacesL m) ++ l) = some (dropSpaces l)
  rw [List.cons_append]
  show some (dropSpaces (spacesL m ++ l)) = some (dropSpaces l)
  rw [dropSpaces_spacesL_append]

theorem takeDigits1_split (d ys : List Char) (hd : d ≠ [])
    (hall : ∀ c ∈ d, isDigitChar c = true)
    (hys : ∀ y ys', ys = y :: ys' → isDigitChar y = false) :
    takeDigits1 (d ++ ys) = some (d, ys) := by
  obtain ⟨c0, d', rfl⟩ := List.exists_cons_of_ne_nil hd
  have hsplit := takeWhile_split isDigitChar (c0 :: d') ys hall hys
  unfold takeDigits1
  rw [hsplit.1, hsplit.2]

theorem try_parse_quit_shape (kc : KeyConfig) (n m : Nat) :
    (KeyInput.mk (':' :: (spacesL n ++ 'q' :: spacesL m)) kc).try_parse_quit =
      some Command.Quit := by
  unfold KeyInput.try_parse_quit
  simp only [dropSpaces_shape n 'q' (spacesL m) (by decide), dropSpaces_spacesL]
  rfl

theorem try_parse_quit_w_shape (kc : KeyConfig) (n : Nat) (l : List Char) :
    (KeyInput.mk (':' :: (spacesL n ++ 'w' :: l)) kc).try_parse_quit = none := by
  unfold KeyInput.try_parse_quit
  simp only [dropSpaces_shape n 'w' l (by decide)]
  rfl

theorem try_parse_quit_s_shape (kc : KeyConfig) (n : Nat) (l : List Char) :
    (KeyInput.mk (':' :: (spacesL n ++ 's' :: l)) kc).try_parse_quit = none := by
  unfold KeyInput.try_parse_quit
  simp only [dropSpaces_shape n 's' l (by decide)]
  rfl

theorem try_parse_save_shape (kc : KeyConfig) (n m : Nat) :
    (KeyInput.mk (':' :: (spacesL n ++ 'w' :: spacesL m)) kc).try_parse_save =
      some Command.Save := by
  unfold KeyInput.try_parse_save
  simp only [dropSpaces_shape n 'w' (spacesL m) (by decide), dropSpaces_spacesL]
  rfl

theorem try_parse_save_w_rest_shape (kc : KeyConfig) (n : Nat) (l : List Char)
    (h : dropSpaces l ≠ []) :
    (KeyInput.mk (':' :: (spacesL n ++ 'w' :: l)) kc).try_parse_save = none := by
  unfold KeyInput.try_parse_save
  simp only [dropSpaces_shape n 'w' l (by decide)]
  rw [if_neg h]

theorem try_parse_save_s_shape (kc : KeyConfig) (n : Nat) (l : List Char) :
    (KeyInput.mk (':' :: (spacesL n ++ 's' :: l)) kc).try_parse_save = none := by
  unfold KeyInput.try_parse_save
  simp only [dropSpaces_shape n 's' l (by decide)]
  rfl

theorem try_parse_save_as_s_shape (kc : KeyConfig) (n : Nat) (l : List Char) :
    (KeyInput.mk (':' :: (spacesL n ++ 's' :: l)) kc).try_parse_save_as = none := by
  unfold KeyInput.try_parse_save_as
  simp only [dropSpaces_shape n 's' l (by decide)]
  rfl

theorem try_parse_save_as_shape (kc : KeyConfig) (n m k : Nat) (p0 : Char) (path' : List Char)
    (hall : ∀ c ∈ (p0 :: path'), isWsChar c = false) :
    (KeyInput.mk
        (':' :: (spacesL n ++ 'w' :: (spacesL (m + 1) ++ ((p0 :: path') ++ spacesL k)))) kc
      ).try_parse_save_as = some (Command.SaveAs (p0 :: path')) := by
  have hp0 : (p0 == ' ') = false := not_space_of_not_ws p0 (hall p0 (by simp))
  have hsplit := takeWhile_split (fun c => !(isWsChar c)) (p0 :: path') (spacesL k)
    (fun x hx => by simp [hall x hx])
    (fun y ys' hy => by
      have hy' : y = ' ' := head_of_spacesL k y ys' hy
      subst hy'
      decide)
  have hds : dropSpaces ((p0 :: path') ++ spacesL k) = (p0 :: path') ++ spacesL k := by
    rw [List.cons_append, dropSpaces_cons_ne _ _ hp0, ← List.cons_append]
  unfold KeyInput.try_parse_save_as
  simp only [dropSpaces_shape n 'w' _ (by decide), expectSpaces1_shape, hds,
    hsplit.1, hsplit.2, dropSpaces_spacesL, if_pos]

theorem try_parse_set_shape (kc : KeyConfig) (n m1 m2 m3 m4 k : Nat) (ch : Char)
    (d1 d2 d3 : List Char) (id : PaletteCellID) (r g b : Nat)
    (hch : isWordChar ch = true)
    (hid : kc.char2palette_cell_id ch = some id)
    (h1ne : d1 ≠ []) (h1d : ∀ c ∈ d1, isDigitChar c = true) (h1v : parseU8 d1 = some r)
    (h2ne : d2 ≠ []) (h2d : ∀ c ∈ d2, isDigitChar c = true) (h2v : parseU8 d2 = some g)
    (h3ne : d3 ≠ []) (h3d : ∀ c ∈ d3, isDigitChar c = true) (h3v : parseU8 d3 = some b) :
    (KeyInput.mk
        (':' :: (spacesL n ++ 's' :: 'e' :: 't' ::
          (spacesL (m1 + 1) ++ ch ::
            (spacesL (m2 + 1) ++ (d1 ++
              (spacesL (m3 + 1) ++ (d2 ++
                (spacesL (m4 + 1) ++ (d3 ++ spacesL k))))))))) kc).try_parse_set_palette =
      some (Command.SetPalette id (Rgb.mk r g b)) := by
  have hC : dropSpaces (ch ::
      (spacesL (m2 + 1) ++ (d1 ++ (spacesL (m3 + 1) ++ (d2 ++
        (spacesL (m4 + 1) ++ (d3 ++ spacesL k))))))) =
      ch :: (spacesL (m2 + 1) ++ (d1 ++ (spacesL (m3 + 1) ++ (d2 ++
        (spacesL (m4 + 1) ++ (d3 ++ spacesL k)))))) :=
    dropSpaces_cons_ne _ _ (not_space_of_word ch hch)
  have hE : dropSpaces (d1 ++ (spacesL (m3 + 1) ++ (d2 ++
      (spacesL (m4 + 1) ++ (d3 ++ spacesL k))))) =
      d1 ++ (spacesL (m3 + 1) ++ (d2 ++ (spacesL (m4 + 1) ++ (d3 ++ spacesL k)))) := by
    obtain ⟨c1, d1', rfl⟩ := List.exists_cons_of_ne_nil h1ne
    rw [List.cons_append,
      dropSpaces_cons_ne _ _ (not_space_of_digit c1 (h1d c1 (by simp))), ← List.cons_append]
  have hF : takeDigits1 (d1 ++ (spacesL (m3 + 1) ++ (d2 ++
      (spacesL (m4 + 1) ++ (d3 ++ spacesL k))))) =
      some (d1, spacesL (m3 + 1) ++ (d2 ++ (spacesL (m4 + 1) ++ (d3 ++ spacesL k)))) :=
    takeDigits1_split _ _ h1ne h1d (fun y ys' hy => by
      have hy' : y = ' ' := head_of_spacesL_succ_append m3 _ y ys' hy
      subst hy'
      decide)
  have hH : dropSpaces (d2 ++ (spacesL (m4 + 1) ++ (d3 ++ spacesL k))) =
      d2 ++ (spacesL (m4 + 1) ++ (d3 ++ spacesL k)) := by
    obtain ⟨c2, d2', rfl⟩ := List.exists_cons_of_ne_nil h2ne
    rw [List.cons_append,
      dropSpaces_cons_ne _ _ (not_space_of_digit c2 (h2d c2 (by simp))), ← List.cons_append]
  have hI : takeDigits1 (d2 ++ (spacesL (m4 + 1) ++ (d3 ++ spacesL k))) =
      some (d2, spacesL (m4 + 1) ++ (d3 ++ spacesL k)) :=
    takeDigits1_split _ _ h2ne h2d (fun y ys' hy => by
      have hy' : y = ' ' := head_of_spacesL_succ_append m4 _ y ys' hy
      subst hy'
      decide)
  have hK : dropSpaces (d3 ++ spacesL k) = d3 ++ spacesL k := by
    obtain ⟨c3, d3', rfl⟩ := List.exists_cons_of_ne_nil h3ne
    rw [List.cons_append,
      dropSpaces_cons_ne _ _ (not_space_of_digit c3 (h3d c3 (by simp))), ← List.cons_append]
  have hL : takeDigits1 (d3 ++ spacesL k) = some (d3, spacesL k) :=
    takeDigits1_split _ _ h3ne h3d (fun y ys' hy => by
      have hy' : y = ' ' := head_of_spacesL k y ys' hy
      subst hy'
      decide)
  have hA : dropSpaces (spacesL n ++ 's' :: 'e' :: 't' ::
      (spacesL (m1 + 1) ++ ch ::
        (spacesL (m2 + 1) ++ (d1 ++ (spacesL (m3 + 1) ++ (d2 ++
          (spacesL (m4 + 1) ++ (d3 ++ spacesL k)))))))) =
      's' :: 'e' :: 't' :: (spacesL (m1 + 1) ++ ch ::
        (spacesL (m2 + 1) ++ (d1 ++ (spacesL (m3 + 1) ++ (d2 ++
          (spacesL (m4 + 1) ++ (d3 ++ spacesL k))))))) :=
    dropSpaces_shape n 's' _ (by decide)
  unfold KeyInput.try_parse_set_palette
  simp only [hA, expectSpaces1_shape, hC, hE, hF, hH, hI,
    hK, hL, dropSpaces_spacesL, hch, hid, h1v, h2v, h3v]
  simp

/-- C7 (amended): whitespace tolerance of the command grammar.  For each of
the four patterns, inter-token whitespace may be any run of one-or-more
spaces, and space padding between the prefix character and the first token
and at the end of the line is tolerated; but the patterns are anchored at
the prefix character, so whitespace before ':' (leading whitespace around
the whole line) is not tolerated. -/
theorem grammar_whitespace_tolerance :
    (∀ (kc : KeyConfig) (n m : Nat),
      (KeyInput.mk (':' :: (spacesL n ++ 'q' :: spacesL m)) kc).parse_cmd_line =
        Command.Quit) ∧
    (∀ (kc : KeyConfig) (n m : Nat),
      (KeyInput.mk (':' :: (spacesL n ++ 'w' :: spacesL m)) kc).parse_cmd_line =
        Command.Save) ∧
    (∀ (kc : KeyConfig) (n m k : Nat) (p0 : Char) (path' : List Char),
      (∀ c ∈ (p0 :: path'), isWsChar c = false) →
      (KeyInput.mk
          (':' :: (spacesL n ++ 'w' :: (spacesL (m + 1) ++ ((p0 :: path') ++ spacesL k)))) kc
        ).parse_cmd_line = Command.SaveAs (p0 :: path')) ∧
    (∀ (kc : KeyConfig) (n m1 m2 m3 m4 k : Nat) (ch : Char) (d1 d2 d3 : List Char)
        (id : PaletteCellID) (r g b : Nat),
      isWordChar ch = true →
      kc.char2palette_cell_id ch = some id →
      d1 ≠ [] → (∀ c ∈ d1, isDigitChar c = true) → parseU8 d1 = some r →
      d2 ≠ [] → (∀ c ∈ d2, isDigitChar c = true) → parseU8 d2 = some g →
      d3 ≠ [] → (∀ c ∈ d3, isDigitChar c = true) → parseU8 d3 = some b →
      (KeyInput.mk
          (':' :: (spacesL n ++ 's' :: 'e' :: 't' ::
            (spacesL (m1 + 1) ++ ch ::
              (spacesL (m2 + 1) ++ (d1 ++
                (spacesL (m3 + 1) ++ (d2 ++
                  (spacesL (m4 + 1) ++ (d3 ++ spacesL k))))))))) kc).parse_cmd_line =
        Command.SetPalette id (Rgb.mk r g b)) := by
  refine ⟨?_, ?_, ?_, ?_⟩
  · intro kc n m
    exact parse_of_quit _ _ (try_parse_quit_shape kc n m)
  · intro kc n m
    exact parse_of_save _ _ (try_parse_quit_w_shape kc n (spacesL m))
      (try_parse_save_shape kc n m)
  · intro kc n m k p0 path' hall
    have hp0 : (p0 == ' ') = false := not_space_of_not_ws p0 (hall p0 (by simp))
    have hne : dropSpaces (spacesL (m + 1) ++ ((p0 :: path') ++ spacesL k)) ≠ [] := by
      rw [dropSpaces_spacesL_append, List.cons_append, dropSpaces_cons_ne _ _ hp0]
      exact List.cons_ne_nil p0 (path' ++ spacesL k)
    exact parse_of_save_as _ _
      (try_parse_quit_w_shape kc n _)
      (try_parse_save_w_rest_shape kc n _ hne)
      (try_parse_save_as_shape kc n m k p0 path' hall)
  · intro kc n m1 m2 m3 m4 k ch d1 d2 d3 id r g b hch hid h1ne h1d h1v h2ne h2d h2v h3ne h3d h3v
    exact parse_of_set_palette _ _
      (try_parse_quit_s_shape kc n _)
      (try_parse_save_s_shape kc n _)
      (try_parse_save_as_s_shape kc n _)
      (try_parse_set_shape kc n m1 m2 m3 m4 k ch d1 d2 d3 id r g b
        hch hid h1ne h1d h1v h2ne h2d h2v h3ne h3d h3v)

/-- C7 counterexample: the patterns are anchored at the prefix character, so
adding a leading space before the whole line turns an accepted quit command
into `Nop` instead of yielding the same instruction. -/
theorem leading_whitespace_changes_instruction :
    (mkKeyInput ":q").parse_cmd_line = Command.Quit ∧
    (mkKeyInput " :q").parse_cmd_line = Command.Nop ∧
    Command.Nop ≠ Command.Quit := by
  refine ⟨by decide, by decide, by decide⟩

theorem grammar_whitespace_tolerance_witness :
    (KeyInput.mk
        (':' :: (spacesL 1 ++ 'w' ::
          (spacesL 2 ++ (('a' :: ['.', 'p', 'n', 'g']) ++ spacesL 1)))) KeyConfig.default
      ).parse_cmd_line = Command.SaveAs ('a' :: ['.', 'p', 'n', 'g']) ∧
    (KeyInput.mk
        (':' :: (spacesL 2 ++ 's' :: 'e' :: 't' ::
          (spacesL 2 ++ 'w' ::
            (spacesL 1 ++ (['2', '5', '5'] ++
              (spacesL 3 ++ (['2', '5', '5'] ++
                (spacesL 2 ++ (['1', '2', '8'] ++ spacesL 2))))))))) KeyConfig.default
      ).parse_cmd_line = Command.SetPalette PaletteCellID.ID0 (Rgb.mk 255 255 128) := by
  constructor
  · exact grammar_whitespace_tolerance.2.2.1 KeyConfig.default 1 1 1 'a' ['.', 'p', 'n', 'g']
      (by decide)
  · exact grammar_whitespace_tolerance.2.2.2 KeyConfig.default 2 1 0 2 1 2 'w'
      ['2', '5', '5'] ['2', '5', '5'] ['1', '2', '8'] PaletteCellID.ID0 255 255 128
      (by decide) (by decide) (by decide) (by decide) (by decide)
      (by decide) (by decide) (by decide) (by decide) (by decide) (by decide)

theorem setAt_get? (l : List α) (i j : Nat) (f : α → α) :
    (setAt l i f).get? j = if i = j then (l.get? j).map f else l.get? j := by
  induction l generalizing i j with
  | nil => simp [setAt]
  | cons a as ih =>
    cases i with
    | zero =>
      cases j with
      | zero => simp [setAt]
      | succ j => simp [setAt]
    | succ i =>
      cases j with
      | zero => simp [setAt]
      | succ j => simpa [setAt] using ih i j

theorem setAt_getElem? (l : List α) (i j : Nat) (f : α → α) :
    (setAt l i f)[j]? = if i = j then Option.map f l[j]? else l[j]? := by
  simpa [List.get?_eq_getElem?] using setAt_get? l i j f

theorem dataSpanAt_setAt (data : List (List Span)) (x y : Nat) (f : Span → Span)
    (x' y' : Nat) :
    dataSpanAt (setAt data y (fun line => setAt line x f)) (x', y') =
      (if y = y' ∧ x = x' then (dataSpanAt data (x', y')).map f
       else dataSpanAt data (x', y')) := by
  unfold dataSpanAt
  rw [setAt_get?]
  by_cases hy : y = y'
  · subst hy
    simp only [if_pos rfl, true_and]
    cases hdata : data.get? y with
    | none => simp
    | some line =>
      by_cases hx : x = x'
      · simp [setAt_getElem?, hx]
      · simp [setAt_getElem?, hx]
  · simp [hy]

theorem spanAt_eq_dataSpanAt (img : Image) (c : Nat × Nat) :
    img.spanAt c = dataSpanAt img.data c := rfl

theorem dataSpanAt_painted (data : List (List Span)) (x y : Nat) (col : TuiColor)
    (x' y' : Nat) :
    dataSpanAt (setBgData (setFgData data (x, y) col) (x, y) col) (x', y') =
      (if y = y' ∧ x = x' then
        (dataSpanAt data (x', y')).map
          (fun s => Span.mk s.content (Style.mk (some col) (some col)))
       else dataSpanAt data (x', y')) := by
  unfold setBgData setFgData
  rw [dataSpanAt_setAt, dataSpanAt_setAt]
  by_cases h : y = y' ∧ x = x'
  · simp only [if_pos h]
    cases hsp : dataSpanAt data (x', y') with
    | none => rfl
    | some s => rfl
  · simp only [if_neg h]

/-- C9: frame effect of `paint`.  Painting an in-bounds cell sets both the
foreground and the background color of exactly that cell to the given color
and leaves every other cell's span (hence its colors), the image's width,
height, and remembered path unchanged. -/
theorem paint_frame (img : Image) (color : Rgb) (x y : Nat) (cf cb : TuiColor)
    (hx : x < img.width) (hy : y < img.height)
    (hf : img.fg_color (x, y) = some cf) (hb : img.bg_color (x, y) = some cb) :
    ∃ img', img.paint color (x, y) = some img' ∧
      img'.path = img.path ∧ img'.width = img.width ∧ img'.height = img.height ∧
      img'.fg_color (x, y) = some color.toColor ∧
      img'.bg_color (x, y) = some color.toColor ∧
      (∀ x' y', (x', y') ≠ (x, y) →
        img'.fg_color (x', y') = img.fg_color (x', y') ∧
        img'.bg_color (x', y') = img.bg_color (x', y') ∧
        img'.spanAt (x', y') = img.spanAt (x', y')) := by
  have hassert : img.assert_coord (x, y) = true := by
    simp [Image.assert_coord, hx, hy]
  obtain ⟨s, hs, hsf⟩ : ∃ s, img.spanAt (x, y) = some s ∧ s.style.fg = some cf := by
    rw [Image.fg_color, if_pos hassert] at hf
    exact Option.bind_eq_some.mp hf
  refine ⟨Image.mk img.path img.width img.height
      (setBgData (setFgData img.data (x, y) color.toColor) (x, y) color.toColor),
    ?_, rfl, rfl, rfl, ?_, ?_, ?_⟩
  · rw [Image.paint, if_pos hassert, hf, hb]
  · show (if Image.assert_coord _ (x, y) then
        (dataSpanAt (setBgData (setFgData img.data (x, y) color.toColor) (x, y)
          color.toColor) (x, y)).bind (fun s => s.style.fg)
      else none) = some color.toColor
    rw [show Image.assert_coord (Image.mk img.path img.width img.height
        (setBgData (setFgData img.data (x, y) color.toColor) (x, y) color.toColor)) (x, y) =
        img.assert_coord (x, y) from rfl, if_pos hassert,
      dataSpanAt_painted, if_pos ⟨rfl, rfl⟩, ← spanAt_eq_dataSpanAt, hs]
    rfl
  · show (if Image.assert_coord _ (x, y) then
        (dataSpanAt (setBgData (setFgData img.data (x, y) color.toColor) (x, y)
          color.toColor) (x, y)).bind (fun s => s.style.bg)
      else none) = some color.toColor
    rw [show Image.assert_coord (Image.mk img.path img.width img.height
        (setBgData (setFgData img.data (x, y) color.toColor) (x, y) color.toColor)) (x, y) =
        img.assert_coord (x, y) from rfl, if_pos hassert,
      dataSpanAt_painted, if_pos ⟨rfl, rfl⟩, ← spanAt_eq_dataSpanAt, hs]
    rfl
  · intro x' y' hne
    have hcond : ¬(y = y' ∧ x = x') := by
      rintro ⟨rfl, rfl⟩
      exact hne rfl
    have hspan : dataSpanAt (setBgData (setFgData img.data (x, y) color.toColor) (x, y)
        color.toColor) (x', y') = dataSpanAt img.data (x', y') := by
      rw [dataSpanAt_painted, if_neg hcond]
    refine ⟨?_, ?_, ?_⟩
    · show (if Image.assert_coord _ (x', y') then
          (dataSpanAt _ (x', y')).bind (fun s => s.style.fg) else none) = img.fg_color (x', y')
      rw [Image.fg_color]
      rw [show Image.assert_coord (Image.mk img.path img.width img.height
          (setBgData (setFgData img.data (x, y) color.toColor) (x, y) color.toColor)) (x', y') =
          img.assert_coord (x', y') from rfl, hspan]
      rfl
    · show (if Image.assert_coord _ (x', y') then
          (dataSpanAt _ (x', y')).bind (fun s => s.style.bg) else none) = img.bg_color (x', y')
      rw [Image.bg_color]
      rw [show Image.assert_coord (Image.mk img.path img.width img.height
          (setBgData (setFgData img.data (x, y) color.toColor) (x, y) color.toColor)) (x', y') =
          img.assert_coord (x', y') from rfl, hspan]
      rfl
    · show dataSpanAt _ (x', y') = img.spanAt (x', y')
      rw [hspan]
      rfl

theorem paint_frame_witness :
    ∃ img', sampleImage.paint (Rgb.mk 9 9 9) (1, 0) = some img' ∧
      img'.fg_color (1, 0) = some (Rgb.mk 9 9 9).toColor ∧
      img'.bg_color (1, 0) = some (Rgb.mk 9 9 9).toColor ∧
      img'.spanAt (0, 0) = sampleImage.spanAt (0, 0) := by
  obtain ⟨img', h1, _, _, _, h5, h6, h7⟩ :=
    paint_frame sampleImage (Rgb.mk 9 9 9) 1 0 (TuiColor.rgb 4 5 6) (TuiColor.rgb 4 5 6)
      (by decide) (by decide) (by decide) (by decide)
  exact ⟨img', h1, h5, h6, (h7 0 0 (by decide)).2.2⟩

theorem fg_color_eq_dataFg (img : Image) (c : Nat × Nat) (h : img.assert_coord c = true) :
    img.fg_color c = dataFg img.data c := by
  rw [Image.fg_color, if_pos h]
  rfl

theorem bg_color_eq_dataBg (img : Image) (c : Nat × Nat) (h : img.assert_coord c = true) :
    img.bg_color c = dataBg img.data c := by
  rw [Image.bg_color, if_pos h]
  rfl

theorem dataBg_setFg (data : List (List Span)) (x y : Nat) (col : TuiColor) (c' : Nat × Nat) :
    dataBg (setFgData data (x, y) col) c' = dataBg data c' := by
  unfold dataBg setFgData
  rw [dataSpanAt_setAt]
  by_cases h : y = c'.2 ∧ x = c'.1
  · rw [if_pos h]
    cases hsp : dataSpanAt data c' with
    | none => rfl
    | some s => rfl
  · rw [if_neg h]

theorem dataFg_setFg_ne (data : List (List Span)) (x y : Nat) (col : TuiColor)
    (x' y' : Nat) (h : ¬(y = y' ∧ x = x')) :
    dataFg (setFgData data (x, y) col) (x', y') = dataFg data (x', y') := by
  unfold dataFg setFgData
  rw [dataSpanAt_setAt, if_neg h]

theorem dataFg_setFg_eq (data : List (List Span)) (x y : Nat) (col : TuiColor)
    (s : Span) (hs : dataSpanAt data (x, y) = some s) :
    dataFg (setFgData data (x, y) col) (x, y) = some col := by
  unfold dataFg setFgData
  rw [dataSpanAt_setAt, if_pos ⟨rfl, rfl⟩, hs]
  rfl

/-- C2: the cursor overlay invariant.  For an image whose cells all have
their displayed foreground equal to their stored background color (which
holds for every image the program builds: `open` styles both alike and
`paint` writes both alike), the projection computed by
`into_text_with_cursor` at an in-bounds cursor keeps
foreground = background = stored color at every non-cursor cell, keeps the
stored color as background at the cursor while setting its foreground to
the channel-wise opposite, and every background color of the projection
equals the stored color, so the stored buffer's colors are unchanged. -/
theorem into_text_with_cursor_spec (img : Image) (cx cy : Nat) (r g b : Nat)
    (hx : cx < img.width) (hy : cy < img.height)
    (hbg : img.bg_color (cx, cy) = some (TuiColor.rgb r g b))
    (hinv : ∀ x, x < img.width → ∀ y, y < img.height →
      img.fg_color (x, y) = img.bg_color (x, y)) :
    ∃ proj, img.into_text_with_cursor (cx, cy) = some proj ∧
      (∀ x, x < img.width → ∀ y, y < img.height → (x, y) ≠ (cx, cy) →
        dataFg proj (x, y) = dataBg proj (x, y) ∧
        dataBg proj (x, y) = img.bg_color (x, y)) ∧
      dataBg proj (cx, cy) = some (TuiColor.rgb r g b) ∧
      dataFg proj (cx, cy) = some (TuiColor.rgb (255 - r) (255 - g) (255 - b)) ∧
      (∀ x, x < img.width → ∀ y, y < img.height →
        dataBg proj (x, y) = img.bg_color (x, y)) := by
  have hassert : img.assert_coord (cx, cy) = true := by
    simp [Image.assert_coord, hx, hy]
  have hf : img.fg_color (cx, cy) = some (TuiColor.rgb r g b) := by
    rw [hinv cx hx cy hy, hbg]
  obtain ⟨s, hs, hsb⟩ : ∃ s, img.spanAt (cx, cy) = some s ∧
      s.style.bg = some (TuiColor.rgb r g b) := by
    rw [Image.bg_color, if_pos hassert] at hbg
    exact Option.bind_eq_some.mp hbg
  have hbg_all : ∀ x, x < img.width → ∀ y, y < img.height →
      dataBg (setFgData img.data (cx, cy) (Rgb.mk r g b).opposite.toColor) (x, y) =
        img.bg_color (x, y) := by
    intro x hxw y hyh
    have ha : img.assert_coord (x, y) = true := by
      simp [Image.assert_coord, hxw, hyh]
    rw [dataBg_setFg, bg_color_eq_dataBg img (x, y) ha]
  refine ⟨setFgData img.data (cx, cy) (Rgb.mk r g b).opposite.toColor, ?_, ?_, ?_, ?_, hbg_all⟩
  · rw [Image.into_text_with_cursor]
    rw [hbg, hf]
  · intro x hxw y hyh hne
    have ha : img.assert_coord (x, y) = true := by
      simp [Image.assert_coord, hxw, hyh]
    have hcond : ¬(cy = y ∧ cx = x) := by
      rintro ⟨rfl, rfl⟩
      exact hne rfl
    refine ⟨?_, hbg_all x hxw y hyh⟩
    rw [dataFg_setFg_ne _ _ _ _ _ _ hcond, hbg_all x hxw y hyh,
      ← fg_color_eq_dataFg img (x, y) ha, hinv x hxw y hyh]
  · rw [hbg_all cx hx cy hy, hbg]
  · exact dataFg_setFg_eq img.data cx cy _ s hs

theorem into_text_with_cursor_spec_witness :
    ∃ proj, sampleImage.into_text_with_cursor (1, 0) = some proj ∧
      dataBg proj (1, 0) = some (TuiColor.rgb 4 5 6) ∧
      dataFg proj (1, 0) = some (TuiColor.rgb (255 - 4) (255 - 5) (255 - 6)) := by
  obtain ⟨proj, h1, _, h3, h4, _⟩ :=
    into_text_with_cursor_spec sampleImage 1 0 4 5 6 (by decide) (by decide) (by decide)
      (by decide)
  exact ⟨proj, h1, h3, h4⟩

theorem optMap_eq_map (f : α → Option β) (g : α → β) (l : List α)
    (h : ∀ a ∈ l, f a = some (g a)) : optMap f l = some (l.map g) := by
  induction l with
  | nil => rfl
  | cons a as ih =>
    rw [optMap, h a (List.mem_cons_self a as), ih (fun x hx => h x (List.mem_cons_of_mem a hx)),
      List.map_cons]

theorem optMap_map (f : β → Option γ) (s : α → β) (l : List α) :
    optMap f (l.map s) = optMap (fun a => f (s a)) l := by
  induction l with
  | nil => rfl
  | cons a as ih => rw [List.map_cons, optMap, optMap, ih]

theorem optMap_congr {f f' : α → Option β} (l : List α) (h : ∀ a ∈ l, f a = f' a) :
    optMap f l = optMap f' l := by
  induction l with
  | nil => rfl
  | cons a as ih =>
    rw [optMap, optMap, h a (List.mem_cons_self a as),
      ih (fun x hx => h x (List.mem_cons_of_mem a hx))]

theorem map_eq_map_of_mem {f g : α → β} (l : List α) (h : ∀ a ∈ l, f a = g a) :
    l.map f = l.map g := by
  induction l with
  | nil => rfl
  | cons a as ih =>
    rw [List.map_cons, List.map_cons, h a (List.mem_cons_self a as),
      ih (fun x hx => h x (List.mem_cons_of_mem a hx))]

theorem chunks_append (n : Nat) (a b : List α) (hn : 0 < n) (ha : a.length = n) :
    chunks n (a ++ b) = a :: chunks n b := by
  cases a with
  | nil =>
    rw [List.length_nil] at ha
    omega
  | cons x xs =>
    rw [List.cons_append, chunks]
    rw [dif_neg (by omega)]
    rw [← List.cons_append, ← ha, List.take_left, List.drop_left]

theorem getD_cons3 (r0 r1 r2 : Nat) (rest : List Nat) (k : Nat) :
    (r0 :: r1 :: r2 :: rest).getD (k + 3) 0 = rest.getD k 0 := rfl

theorem flatten_triples (w : Nat) (rgbs : List Nat) (hlen : rgbs.length = 3 * w) :
    ((List.range w).map
        (fun x => [rgbs.getD (3 * x) 0, rgbs.getD (3 * x + 1) 0, rgbs.getD (3 * x + 2) 0])
      ).flatten = rgbs := by
  induction w generalizing rgbs with
  | zero =>
    have : rgbs = [] := List.length_eq_zero.mp (by omega)
    subst this
    rfl
  | succ n ih =>
    match rgbs, hlen with
    | r0 :: r1 :: r2 :: rest, hlen =>
      have hrest : rest.length = 3 * n := by
        simp only [List.length_cons] at hlen
        omega
      rw [List.range_succ_eq_map, List.map_cons, List.flatten_cons, List.map_map]
      have hmap : (List.range n).map
          ((fun x => [(r0 :: r1 :: r2 :: rest).getD (3 * x) 0,
            (r0 :: r1 :: r2 :: rest).getD (3 * x + 1) 0,
            (r0 :: r1 :: r2 :: rest).getD (3 * x + 2) 0]) ∘ Nat.succ) =
          (List.range n).map
          (fun x => [rest.getD (3 * x) 0, rest.getD (3 * x + 1) 0, rest.getD (3 * x + 2) 0]) := by
        apply map_eq_map_of_mem
        intro x _
        have h3 : 3 * Nat.succ x = 3 * x + 3 := by omega
        have h31 : 3 * Nat.succ x + 1 = (3 * x + 1) + 3 := by omega
        have h32 : 3 * Nat.succ x + 2 = (3 * x + 2) + 3 := by omega
        simp only [Function.comp, h3, h31, h32, getD_cons3]
      rw [hmap, ih rest hrest]
      rfl

theorem buildLine_get? (w : Nat) (a : List Nat) (x : Nat) (hx : x < w) :
    (buildLine w a).get? x = some (buildSpan a x) := by
  unfold buildLine
  rw [List.get?_map, List.get?_range hx]
  rfl

theorem rowVec_some (img : Image) (y : Nat) (a : List Nat)
    (hy : y < img.height) (hrow : img.data.get? y = some (buildLine img.width a))
    (hlen : a.length = 3 * img.width) :
    img.rowVec y = some a := by
  unfold Image.rowVec
  rw [optMap_eq_map _
    (fun x => [a.getD (3 * x) 0, a.getD (3 * x + 1) 0, a.getD (3 * x + 2) 0])]
  · rw [Option.map_some']
    exact congrArg some (flatten_triples img.width a hlen)
  · intro x hxmem
    have hxw : x < img.width := List.mem_range.mp hxmem
    have hassert : img.assert_coord (x, y) = true := by
      simp [Image.assert_coord, hxw, hy]
    rw [show img.bg_color (x, y) =
        (if img.assert_coord (x, y) then (img.spanAt (x, y)).bind (fun s => s.style.bg)
         else none) from rfl, if_pos hassert,
      show img.spanAt (x, y) = (img.data.get? y).bind (fun line => line.get? x) from rfl,
      hrow, Option.some_bind, buildLine_get? img.width a x hxw]
    rfl

theorem rowVec_tail (p p' : List Char) (w n : Nat) (row : List Span)
    (rows : List (List Span)) (y : Nat) :
    (Image.mk p w (n + 1) (row :: rows)).rowVec (y + 1) =
      (Image.mk p' w n rows).rowVec y := by
  unfold Image.rowVec
  apply congrArg (Option.map List.flatten)
  apply optMap_congr
  intro x _
  apply congrArg rgbBytesOfColor
  unfold Image.bg_color Image.assert_coord Image.spanAt
  simp [Nat.add_lt_add_iff_right]

/-- C1: round-trip of the pixel data through the decode/encode pair that the
program itself implements around the external PNG codec.  The byte vector
produced by `rgb_vec` (row-major, three bytes per pixel, reading each
cell's background color) on an image built by `open` from a decoded byte
stream equals that byte stream exactly — so saving with `save_as` hands the
encoder precisely the decoded pixels, pixel for pixel, provided no cell was
painted in between. -/
theorem rgb_vec_roundtrip (p : List Char) (w h : Nat) (bytes : List Nat)
    (hw : 0 < w) (hlen : bytes.length = w * h * 3) :
    (Image.openFromBytes p w h bytes).rgb_vec = some bytes := by
  induction h generalizing bytes with
  | zero =>
    have hb : bytes = [] := List.length_eq_zero.mp (by omega)
    subst hb
    rfl
  | succ n ih =>
    have hexp : w * (n + 1) * 3 = w * n * 3 + 3 * w := by ring
    have hta : (bytes.take (3 * w)).length = 3 * w := by
      rw [List.length_take]
      omega
    have hdr : (bytes.drop (3 * w)).length = w * n * 3 := by
      rw [List.length_drop]
      omega
    have hchunks : chunks (3 * w) bytes =
        bytes.take (3 * w) :: chunks (3 * w) (bytes.drop (3 * w)) := by
      conv_lhs => rw [← List.take_append_drop (3 * w) bytes]
      exact chunks_append (3 * w) _ _ (by omega) hta
    have hdata : decodeText w bytes =
        buildLine w (bytes.take (3 * w)) :: decodeText w (bytes.drop (3 * w)) := by
      unfold decodeText
      rw [hchunks, List.map_cons]
    have hrow0 : (Image.openFromBytes p w (n + 1) bytes).rowVec 0 =
        some (bytes.take (3 * w)) := by
      apply rowVec_some
      · exact Nat.succ_pos n
      · show (decodeText w bytes).get? 0 = _
        rw [hdata]
        rfl
      · exact hta
    have htail : ∀ y, (Image.openFromBytes p w (n + 1) bytes).rowVec (y + 1) =
        (Image.openFromBytes p w n (bytes.drop (3 * w))).rowVec y := by
      intro y
      rw [show Image.openFromBytes p w (n + 1) bytes =
          Image.mk p w (n + 1) (decodeText w bytes) from rfl, hdata]
      exact rowVec_tail p p w n _ _ y
    have hih := ih (bytes.drop (3 * w)) hdr
    unfold Image.rgb_vec at hih ⊢
    rw [show (Image.openFromBytes p w (n + 1) bytes).height = n + 1 from rfl,
      List.range_succ_eq_map, optMap, hrow0, optMap_map]
    rw [optMap_congr (List.range n) (fun y _ => htail y)]
    rw [show (Image.openFromBytes p w n (bytes.drop (3 * w))).height = n from rfl] at hih
    cases ho : optMap (Image.openFromBytes p w n (bytes.drop (3 * w))).rowVec (List.range n) with
    | none =>
      rw [ho] at hih
      cases hih
    | some rows =>
      rw [ho] at hih
      rw [Option.map_some'] at hih
      have hflat : rows.flatten = bytes.drop (3 * w) := Option.some.injEq .. |>.mp hih
      rw [Option.map_some']
      show some ((bytes.take (3 * w) :: rows).flatten) = some bytes
      rw [List.flatten_cons, hflat, List.take_append_drop]

theorem rgb_vec_roundtrip_witness :
    (Image.openFromBytes [] 1 2 [10, 20, 30, 40, 50, 60]).rgb_vec =
      some [10, 20, 30, 40, 50, 60] :=
  rgb_vec_roundtrip [] 1 2 [10, 20, 30, 40, 50, 60] (by decide) (by decide)
